import Mathlib

set_option maxHeartbeats 1000000

namespace TwentyQuestions

/- Shallow embedding of the Go repository hmcalister/TwentyQuestions,
package game.  The per-session state machine, SSE hub and JWT check are
taken from game/game.go; the session registry (id generation, insertion,
JWT issuance, expiry) from the gameMaster sources.  Mutex-guarded
read-then-write regions are embedded as atomic sequential functions. -/

/-- Enum for gameState, determining what is required next (game.go). -/
inductive gameStateEnum where
  | gameState_AwaitingQuestion
  | gameState_AwaitingAnswer
  | gameState_GameOver
deriving DecidableEq, Repr

open gameStateEnum

/-- Question and Answer pairs (game.go).  The Go zero value "" for Answer
means the answer is absent, i.e. the turn is open. -/
structure questionAnswerPair where
  Index : Nat
  Question : String
  Answer : String
deriving DecidableEq, Repr

/-- Server sent event client (game.go).  The request context with cancel is
modelled by the flag done (context.Done() has fired); sends on
responsesChannel are modelled by appending to received; closing the channel
sets channelClosed. -/
structure sseClient where
  done : Bool
  received : List String
  channelClosed : Bool
deriving DecidableEq, Repr

/-- jwt.RegisteredClaims restricted to the fields this program sets and
checks (ExpiresAt as a unix timestamp). -/
structure RegisteredClaims where
  Issuer : String
  Subject : String
  ExpiresAt : Option Int
deriving DecidableEq, Repr

/-- Symbolic model of the HMAC-SHA512 signature: a signature verifies for a
key and a claims payload exactly when it was produced from that key and
payload. -/
structure Sig where
  key : String
  payload : RegisteredClaims
deriving DecidableEq, Repr

def hmacSign (key : String) (claims : RegisteredClaims) : Sig := ⟨key, claims⟩

/-- A decoded JWT: the claims it carries plus its signature. -/
structure JWTToken where
  claims : RegisteredClaims
  sig : Sig
deriving DecidableEq, Repr

/-- Data representing an individual game (game.go GameData).  The router,
mutexes and sanitizer carry no state relevant to the embedded operations. -/
structure GameData where
  gameID : String
  oracleJWTKey : String
  gameState : gameStateEnum
  questionAnswerPairs : List questionAnswerPair
  allResponsesHTML : String
  sseClients : List sseClient
deriving DecidableEq, Repr

/-- game.go newGameData: initial per-session state. -/
def newGameData (gameID : String) (oracleJWTKey : String) : GameData :=
  { gameID := gameID
    oracleJWTKey := oracleJWTKey
    gameState := gameState_AwaitingQuestion
    questionAnswerPairs := []
    allResponsesHTML := ""
    sseClients := [] }

/-- Expiry validation performed by jwt.ParseWithClaims: with ExpiresAt set,
the token is expired once now has reached it; a token without ExpiresAt is
not expired (exp is not required by default in jwt v5). -/
def claimsExpired (claims : RegisteredClaims) (now : Int) : Bool :=
  match claims.ExpiresAt with
  | none => false
  | some e => decide (e ≤ now)

/-- game.go checkRequestFromOracle.  The request cookie is modelled as an
optional token (none models http.ErrNoCookie or any cookie read error);
jwt.ParseWithClaims errors when the signature does not verify under the
session key or when claims validation (expiry) fails; every failure path
returns false, and the function is total (never throws). -/
def checkRequestFromOracle (data : GameData) (cookie : Option JWTToken) (now : Int) : Bool :=
  match cookie with
  | none => false
  | some tok =>
    if tok.sig ≠ hmacSign data.oracleJWTKey tok.claims then false
    else if claimsExpired tok.claims now then false
    else if tok.claims.Issuer ≠ data.gameID ∨ tok.claims.Subject ≠ "oracle" then false
    else true

/-- 24 hours (game_maxDuration) in seconds. -/
def game_maxDurationSeconds : Int := 24 * 60 * 60

/-- Token issuance inside newGame (gameMaster): Issuer = gameID,
Subject = "oracle", ExpiresAt = now + 24h, signed HS512 with the
session-scoped random key. -/
def issueOracleToken (gameID : String) (key : String) (now : Int) : JWTToken :=
  { claims := { Issuer := gameID, Subject := "oracle",
                ExpiresAt := some (now + game_maxDurationSeconds) }
    sig := hmacSign key { Issuer := gameID, Subject := "oracle",
                          ExpiresAt := some (now + game_maxDurationSeconds) } }

/-- strings.ReplaceAll(s, "\n", "") as used in game.go: the replacement is
empty, so this removes every newline character. -/
def stripNewlines (s : String) : String := ⟨s.data.filter (fun c => c != '\n')⟩

/-- game.go sendClientsResponseHTML: iterate the client array; a client whose
context is done has its channel closed and is spliced out by moving the last
array element into its slot (which is then examined again, so the loop index
does not advance); a live client is sent the html (blocking send).  Returns
the remaining client array together with the spliced-out clients. -/
def sendClientsResponseHTML (html : String) : List sseClient → List sseClient × List sseClient
  | [] => ([], [])
  | c :: rest =>
    if c.done then
      match rest with
      | [] => ([], [{ c with channelClosed := true }])
      | r :: rs =>
        let res := sendClientsResponseHTML html
          ((r :: rs).getLast (by simp) :: (r :: rs).dropLast)
        (res.1, { c with channelClosed := true } :: res.2)
    else
      let res := sendClientsResponseHTML html rest
      ({ c with received := c.received ++ [html] } :: res.1, res.2)
termination_by l => l.length
decreasing_by
  all_goals simp [List.length_dropLast]

/-- game.go addNextQuestion: under the game state mutex, reject (error)
unless currently awaiting a question; otherwise append
questionAnswerPair{Index = len+1, Question = question} and move to
awaiting-answer. -/
def addNextQuestion (data : GameData) (question : String) : Option GameData :=
  if data.gameState ≠ gameState_AwaitingQuestion then none
  else some { data with
    questionAnswerPairs := data.questionAnswerPairs ++
      [{ Index := data.questionAnswerPairs.length + 1, Question := question, Answer := "" }]
    gameState := gameState_AwaitingAnswer }

/-- The assignment questionAnswerPairs[len(questionAnswerPairs)-1].Answer =
answer: none models the Go index-out-of-range panic on an empty slice. -/
def setLastAnswer (pairs : List questionAnswerPair) (answer : String) :
    Option (List questionAnswerPair) :=
  match pairs.getLast? with
  | none => none
  | some p => some (pairs.dropLast ++ [{ p with Answer := answer }])

/-- Result of game.go addNextAnswer: success, the "not currently awaiting
answer" error, or the runtime panic on an empty slice. -/
inductive AnswerResult where
  | ok (data : GameData)
  | errNotAwaiting
  | panicIndexOutOfRange
deriving Repr

/-- game.go addNextAnswer: under the game state mutex, reject unless
currently awaiting an answer; otherwise write the answer into the last
question/answer pair and move back to awaiting-question. -/
def addNextAnswer (data : GameData) (answer : String) : AnswerResult :=
  if data.gameState ≠ gameState_AwaitingAnswer then AnswerResult.errNotAwaiting
  else
    match setLastAnswer data.questionAnswerPairs answer with
    | none => AnswerResult.panicIndexOutOfRange
    | some ps => AnswerResult.ok { data with
        questionAnswerPairs := ps
        gameState := gameState_AwaitingQuestion }

/-- game.go gameCleanup: under the clients mutex, close every client channel,
cancel every context not already done, and reset the client array to empty.
Returns the cleaned GameData together with the final state of the torn-down
clients. -/
def gameCleanup (data : GameData) : GameData × List sseClient :=
  ({ data with sseClients := [] },
   data.sseClients.map (fun c => { c with channelClosed := true, done := true }))

/-- The external html/template renderer: ExecuteTemplate over gameItem.html
applied to the question/answer pairs, and over gameOver.html applied to the
verdict.  none models a template execution error. -/
structure Renderer where
  gameItem : List questionAnswerPair → Option String
  gameOver : Bool → Option String

/-- Tail of game.go handleNewResponse after a successful submission: render
gameItem.html; on error, log and return without touching allResponsesHTML or
the clients; otherwise store the newline-stripped html and fan out. -/
def publishUpdate (R : Renderer) (data : GameData) : GameData :=
  match R.gameItem data.questionAnswerPairs with
  | none => data
  | some html =>
    let newHTML := stripNewlines html
    { data with
      allResponsesHTML := newHTML
      sseClients := (sendClientsResponseHTML newHTML data.sseClients).1 }

/-- The HTTP statuses written by the game handlers. -/
inductive HTTPStatus where
  | ok200
  | badRequest400
  | unauthorized401
deriving DecidableEq, Repr

/-- game.go handleNewResponse: 400 on an empty response or a finished game;
otherwise route to addNextAnswer (oracle) or addNextQuestion (guesser), 400
on rejection; on success write 200, re-render and fan out.  The outer none
models the Go panic inside addNextAnswer, which cannot occur on reachable
states. -/
def handleNewResponse (R : Renderer) (data : GameData) (isOracle : Bool)
    (response : String) : Option (GameData × HTTPStatus) :=
  if response.length = 0 ∨ data.gameState = gameState_GameOver then
    some (data, HTTPStatus.badRequest400)
  else if isOracle then
    match addNextAnswer data response with
    | AnswerResult.errNotAwaiting => some (data, HTTPStatus.badRequest400)
    | AnswerResult.panicIndexOutOfRange => none
    | AnswerResult.ok d => some (publishUpdate R d, HTTPStatus.ok200)
  else
    match addNextQuestion data response with
    | none => some (data, HTTPStatus.badRequest400)
    | some d => some (publishUpdate R d, HTTPStatus.ok200)

/-- game.go oracleVerdictCorrect / oracleVerdictIncorrect (identical up to
the Bool handed to gameOver.html): 401 without oracle privilege, 400 if the
game is already over; otherwise set gameState to GameOver, render
gameOver.html (on error: log and return with nothing appended or sent), else
append to allResponsesHTML, strip newlines, and fan out.  The success and
render-error paths write no explicit status, so the response is 200. -/
def oracleVerdict (R : Renderer) (data : GameData) (isOracle : Bool) (correct : Bool) :
    GameData × HTTPStatus :=
  if isOracle = false then (data, HTTPStatus.unauthorized401)
  else if data.gameState = gameState_GameOver then (data, HTTPStatus.badRequest400)
  else
    let d1 : GameData := { data with gameState := gameState_GameOver }
    match R.gameOver correct with
    | none => (d1, HTTPStatus.ok200)
    | some html =>
      let newHTML := stripNewlines (d1.allResponsesHTML ++ html)
      ({ d1 with
          allResponsesHTML := newHTML
          sseClients := (sendClientsResponseHTML newHTML d1.sseClients).1 },
       HTTPStatus.ok200)

def oracleVerdictCorrect (R : Renderer) (data : GameData) (isOracle : Bool) :
    GameData × HTTPStatus :=
  oracleVerdict R data isOracle true

def oracleVerdictIncorrect (R : Renderer) (data : GameData) (isOracle : Bool) :
    GameData × HTTPStatus :=
  oracleVerdict R data isOracle false

/-- game.go responsesSourceSSE: append a new client (request context, fresh
channel) under the clients mutex, then send the current allResponsesHTML to
initialise it; the handler then parks until the request context is done. -/
def responsesSourceSSE (data : GameData) : GameData :=
  { data with sseClients := data.sseClients ++
      [{ done := false, received := [data.allResponsesHTML], channelClosed := false }] }

/-- Environment action: the request context of client i is cancelled (the
subscriber disconnects).  An out-of-range i is a no-op. -/
def cancelClient (data : GameData) (i : Nat) : GameData :=
  { data with sseClients :=
      data.sseClients.mapIdx (fun j c => if j = i then { c with done := true } else c) }

/-- The operations that can hit one session: a POST to submitResponse (routed
by the verified oracle privilege), a verdict request, a new SSE subscriber,
and a subscriber disconnecting. -/
inductive GameOp where
  | submit (isOracle : Bool) (response : String)
  | verdict (isOracle : Bool) (correct : Bool)
  | subscribe
  | disconnect (i : Nat)

/-- One public operation on a session.  none models a Go panic. -/
def step (R : Renderer) (s : GameData) : GameOp → Option GameData
  | GameOp.submit o text => (handleNewResponse R s o text).map Prod.fst
  | GameOp.verdict o c => some (oracleVerdict R s o c).1
  | GameOp.subscribe => some (responsesSourceSSE s)
  | GameOp.disconnect i => some (cancelClient s i)

def runOps (R : Renderer) : List GameOp → GameData → Option GameData
  | [], s => some s
  | op :: rest, s =>
    match step R s op with
    | none => none
    | some s' => runOps R rest s'

/-- The session states reachable from a fresh game by the public operations. -/
def Reachable (R : Renderer) (s : GameData) : Prop :=
  ∃ gid key ops, runOps R ops (newGameData gid key) = some s

-- --------------------------------------------------------------------------------
-- Session registry (gameMaster)
-- --------------------------------------------------------------------------------

/-- gameID_Length (gameMaster.go). -/
def gameID_Length : Nat := 12

/-- letterRunes (gameMaster.go): the 62 alphanumeric characters. -/
def letterRunes : List Char :=
  "abcdefghijklmnopqrstuvwxyzABCDEFGHIJKLMNOPQRSTUVWXYZ0123456789".data

/-- gameMaster.randomString.  The rng is modelled as the pre-drawn stream of
the values produced by rng.Intn(len(letterRunes)); the stream values are
reduced mod 62 so the function is total on arbitrary streams. -/
def randomString : List Nat → Nat → String × List Nat
  | draws, 0 => ("", draws)
  | draws, n + 1 =>
    let c := letterRunes.getD (draws.headD 0 % letterRunes.length) 'a'
    let res := randomString draws.tail n
    (⟨c :: res.1.data⟩, res.2)

/-- The registry: the gameMap from gameID to the game data (an association
list models the Go map; the mutex is embedded by making each registry
operation atomic). -/
structure gameMaster where
  gameMap : List (String × GameData)
deriving Repr

def hasGameID (master : gameMaster) (gid : String) : Bool :=
  master.gameMap.any (fun kv => decide (kv.1 = gid))

/-- The collision re-roll loop inside newGame, with explicit fuel (the Go
loop retries unboundedly until the candidate id is not a key of the map). -/
def newGameLoop (master : gameMaster) : List Nat → Nat → Option (String × List Nat)
  | _, 0 => none
  | draws, fuel + 1 =>
    let res := randomString draws gameID_Length
    if hasGameID master res.1 then newGameLoop master res.2 fuel
    else some res

/-- gameMaster newGame: under the registry write lock, draw a fresh gameID
(re-rolling on collision), mint the oracle JWT under a fresh 64-character
key, create the game data and insert it into the map, all before the lock is
released.  Returns the id, the issued token, the new registry and the
remaining randomness. -/
def newGame (master : gameMaster) (draws : List Nat) (fuel : Nat) (now : Int) :
    Option (String × JWTToken × gameMaster × List Nat) :=
  match newGameLoop master draws fuel with
  | none => none
  | some (gid, d1) =>
    let res := randomString d1 64
    some (gid, issueOracleToken gid res.1 now,
          { gameMap := master.gameMap ++ [(gid, newGameData gid res.1)] }, res.2)

/-- The expiry goroutine spawned by newGame: after game_maxDuration, take the
registry write lock and delete the gameID from the map.  Nothing else runs:
in particular the game data itself — its sseClients included — is not
touched, and gameCleanup is not invoked. -/
def gameExpiry (master : gameMaster) (gameID : String) : gameMaster :=
  { gameMap := master.gameMap.filter (fun kv => decide (kv.1 ≠ gameID)) }

-- --------------------------------------------------------------------------------
-- Concrete values used by witnesses
-- --------------------------------------------------------------------------------

/-- A renderer whose template executions always fail. -/
def renderNone : Renderer := { gameItem := fun _ => none, gameOver := fun _ => none }

/-- The state after one successful question submission from a fresh game
(under renderNone). -/
def sampleAwaitingAnswer : GameData :=
  { gameID := "g", oracleJWTKey := "k", gameState := gameState_AwaitingAnswer,
    questionAnswerPairs := [{ Index := 1, Question := "q", Answer := "" }],
    allResponsesHTML := "", sseClients := [] }

/-- The state after an immediate correct verdict on a fresh game (under
renderNone). -/
def sampleGameOver : GameData :=
  { gameID := "g", oracleJWTKey := "k", gameState := gameState_GameOver,
    questionAnswerPairs := [], allResponsesHTML := "", sseClients := [] }

/-- A finished session with one still-connected subscriber, as it stands
when the 24h expiry timer fires. -/
def sampleWithLiveClient : GameData :=
  { sampleGameOver with
    sseClients := [{ done := false, received := [""], channelClosed := false }] }

-- --------------------------------------------------------------------------------
-- State-machine invariant
-- --------------------------------------------------------------------------------

/-- Every turn in the list is answered (no open turn). -/
def NoOpen (l : List questionAnswerPair) : Prop := ∀ p ∈ l, p.Answer ≠ ""

/-- The list ends in a single open turn and every earlier turn is answered. -/
def OneOpenLast (l : List questionAnswerPair) : Prop :=
  ∃ l0 p, l = l0 ++ [p] ∧ NoOpen l0 ∧ p.Answer = ""

/-- The session invariant: awaiting a question means no open turn; awaiting
an answer means exactly one open turn, the last; a finished game froze one
of those two shapes. -/
def Inv (s : GameData) : Prop :=
  (s.gameState = gameState_AwaitingQuestion → NoOpen s.questionAnswerPairs) ∧
  (s.gameState = gameState_AwaitingAnswer → OneOpenLast s.questionAnswerPairs) ∧
  (s.gameState = gameState_GameOver →
      NoOpen s.questionAnswerPairs ∨ OneOpenLast s.questionAnswerPairs)

/-- Number of open (answer-less) turns in the session. -/
def openTurns (s : GameData) : Nat :=
  s.questionAnswerPairs.countP (fun p => decide (p.Answer = ""))

-- --------------------------------------------------------------------------------
-- Helper lemmas
-- --------------------------------------------------------------------------------

theorem string_length_eq_zero_iff (s : String) : s.length = 0 ↔ s = "" := by
  constructor
  · intro h
    cases s with
    | mk data =>
      have hd : data = [] := List.length_eq_zero.mp h
      subst hd
      rfl
  · intro h
    subst h
    rfl

theorem publishUpdate_gameState (R : Renderer) (d : GameData) :
    (publishUpdate R d).gameState = d.gameState := by
  unfold publishUpdate
  cases R.gameItem d.questionAnswerPairs <;> simp

theorem publishUpdate_pairs (R : Renderer) (d : GameData) :
    (publishUpdate R d).questionAnswerPairs = d.questionAnswerPairs := by
  unfold publishUpdate
  cases R.gameItem d.questionAnswerPairs <;> simp

theorem publishUpdate_none (R : Renderer) (d : GameData)
    (h : R.gameItem d.questionAnswerPairs = none) : publishUpdate R d = d := by
  unfold publishUpdate
  rw [h]

theorem setLastAnswer_concat (l : List questionAnswerPair) (p : questionAnswerPair)
    (a : String) :
    setLastAnswer (l ++ [p]) a = some (l ++ [{ p with Answer := a }]) := by
  unfold setLastAnswer
  rw [List.getLast?_concat, List.dropLast_concat]

theorem handleNewResponse_early (R : Renderer) (s : GameData) (o : Bool) (text : String)
    (h : text.length = 0 ∨ s.gameState = gameState_GameOver) :
    handleNewResponse R s o text = some (s, HTTPStatus.badRequest400) := by
  unfold handleNewResponse
  rw [if_pos h]

theorem handleNewResponse_question_ok (R : Renderer) (s : GameData) (text : String)
    (hst : s.gameState = gameState_AwaitingQuestion) (htext : text ≠ "") :
    handleNewResponse R s false text =
      some (publishUpdate R { s with
        questionAnswerPairs := s.questionAnswerPairs ++
          [{ Index := s.questionAnswerPairs.length + 1, Question := text, Answer := "" }]
        gameState := gameState_AwaitingAnswer }, HTTPStatus.ok200) := by
  have hcond : ¬ (text.length = 0 ∨ s.gameState = gameState_GameOver) := by
    rw [string_length_eq_zero_iff]
    simp [htext, hst]
  unfold handleNewResponse
  rw [if_neg hcond]
  simp [addNextQuestion, hst]

theorem handleNewResponse_question_reject (R : Renderer) (s : GameData) (text : String)
    (h : s.gameState ≠ gameState_AwaitingQuestion ∨ text = "") :
    handleNewResponse R s false text = some (s, HTTPStatus.badRequest400) := by
  by_cases htext : text = ""
  · exact handleNewResponse_early R s false text (Or.inl (by simp [htext]))
  · have hst : s.gameState ≠ gameState_AwaitingQuestion := by tauto
    by_cases hgo : s.gameState = gameState_GameOver
    · exact handleNewResponse_early R s false text (Or.inr hgo)
    · have hcond : ¬ (text.length = 0 ∨ s.gameState = gameState_GameOver) := by
        rw [string_length_eq_zero_iff]
        simp [htext, hgo]
      unfold handleNewResponse
      rw [if_neg hcond]
      simp [addNextQuestion, hst]

theorem handleNewResponse_answer_ok (R : Renderer) (s : GameData) (text : String)
    (l0 : List questionAnswerPair) (p : questionAnswerPair)
    (hst : s.gameState = gameState_AwaitingAnswer) (htext : text ≠ "")
    (hl : s.questionAnswerPairs = l0 ++ [p]) :
    handleNewResponse R s true text =
      some (publishUpdate R { s with
        questionAnswerPairs := l0 ++ [{ p with Answer := text }]
        gameState := gameState_AwaitingQuestion }, HTTPStatus.ok200) := by
  have hcond : ¬ (text.length = 0 ∨ s.gameState = gameState_GameOver) := by
    rw [string_length_eq_zero_iff]
    simp [htext, hst]
  unfold handleNewResponse
  rw [if_neg hcond]
  simp [addNextAnswer, hst, hl, setLastAnswer_concat]

theorem handleNewResponse_answer_reject (R : Renderer) (s : GameData) (text : String)
    (h : s.gameState ≠ gameState_AwaitingAnswer ∨ text = "") :
    handleNewResponse R s true text = some (s, HTTPStatus.badRequest400) := by
  by_cases htext : text = ""
  · exact handleNewResponse_early R s true text (Or.inl (by simp [htext]))
  · have hst : s.gameState ≠ gameState_AwaitingAnswer := by tauto
    by_cases hgo : s.gameState = gameState_GameOver
    · exact handleNewResponse_early R s true text (Or.inr hgo)
    · have hcond : ¬ (text.length = 0 ∨ s.gameState = gameState_GameOver) := by
        rw [string_length_eq_zero_iff]
        simp [htext, hgo]
      unfold handleNewResponse
      rw [if_neg hcond]
      simp [addNextAnswer, hst]

theorem oracleVerdict_fields (R : Renderer) (s : GameData) (o c : Bool) :
    (oracleVerdict R s o c).1.questionAnswerPairs = s.questionAnswerPairs ∧
    ((oracleVerdict R s o c).1.gameState = s.gameState ∨
     (oracleVerdict R s o c).1.gameState = gameState_GameOver) := by
  unfold oracleVerdict
  by_cases ho : o = false
  · simp [ho]
  · by_cases hgo : s.gameState = gameState_GameOver
    · simp [ho, hgo]
    · simp only [ho, hgo, if_false, if_neg]
      cases R.gameOver c <;> simp

theorem oracleVerdict_rejected (R : Renderer) (s : GameData) (o c : Bool)
    (h : s.gameState = gameState_GameOver) :
    (oracleVerdict R s o c).1 = s ∧ (oracleVerdict R s o c).2 ≠ HTTPStatus.ok200 := by
  unfold oracleVerdict
  by_cases ho : o = false
  · simp [ho]
  · simp [ho, h]

theorem Inv_of_fields (s s' : GameData)
    (hpairs : s'.questionAnswerPairs = s.questionAnswerPairs)
    (hstate : s'.gameState = s.gameState ∨ s'.gameState = gameState_GameOver)
    (hInv : Inv s) : Inv s' := by
  unfold Inv at *
  rw [hpairs]
  rcases hstate with hs | hs <;> rw [hs]
  · exact hInv
  · refine ⟨?_, ?_, ?_⟩
    · intro hq
      exact absurd hq (by decide)
    · intro hq
      exact absurd hq (by decide)
    · intro _
      cases hgs : s.gameState with
      | gameState_AwaitingQuestion => exact Or.inl (hInv.1 hgs)
      | gameState_AwaitingAnswer => exact Or.inr (hInv.2.1 hgs)
      | gameState_GameOver => exact hInv.2.2 hgs

theorem Inv_publishUpdate (R : Renderer) (d : GameData) (h : Inv d) :
    Inv (publishUpdate R d) :=
  Inv_of_fields d (publishUpdate R d) (publishUpdate_pairs R d)
    (Or.inl (publishUpdate_gameState R d)) h

theorem handleNewResponse_Inv (R : Renderer) (s : GameData) (o : Bool) (text : String)
    (d : GameData) (st : HTTPStatus) (hInv : Inv s)
    (h : handleNewResponse R s o text = some (d, st)) : Inv d := by
  cases o with
  | false =>
    by_cases hok : s.gameState = gameState_AwaitingQuestion ∧ text ≠ ""
    · obtain ⟨hst, htext⟩ := hok
      rw [handleNewResponse_question_ok R s text hst htext] at h
      simp only [Option.some.injEq, Prod.mk.injEq] at h
      obtain ⟨hd, -⟩ := h
      rw [← hd]
      apply Inv_publishUpdate
      refine ⟨?_, ?_, ?_⟩
      · intro hq
        simp at hq
      · intro _
        exact ⟨s.questionAnswerPairs,
          { Index := s.questionAnswerPairs.length + 1, Question := text, Answer := "" },
          rfl, hInv.1 hst, rfl⟩
      · intro hq
        simp at hq
    · have hrej : s.gameState ≠ gameState_AwaitingQuestion ∨ text = "" := by tauto
      rw [handleNewResponse_question_reject R s text hrej] at h
      simp only [Option.some.injEq, Prod.mk.injEq] at h
      obtain ⟨hd, -⟩ := h
      rw [← hd]
      exact hInv
  | true =>
    by_cases hok : s.gameState = gameState_AwaitingAnswer ∧ text ≠ ""
    · obtain ⟨hst, htext⟩ := hok
      obtain ⟨l0, p, hl, hno, hopen⟩ := hInv.2.1 hst
      rw [handleNewResponse_answer_ok R s text l0 p hst htext hl] at h
      simp only [Option.some.injEq, Prod.mk.injEq] at h
      obtain ⟨hd, -⟩ := h
      rw [← hd]
      apply Inv_publishUpdate
      refine ⟨?_, ?_, ?_⟩
      · intro _ q hq
        rcases List.mem_append.mp hq with hq | hq
        · exact hno q hq
        · have hqp : q = { p with Answer := text } := List.mem_singleton.mp hq
          rw [hqp]
          exact htext
      · intro hq
        simp at hq
      · intro hq
        simp at hq
    · have hrej : s.gameState ≠ gameState_AwaitingAnswer ∨ text = "" := by tauto
      rw [handleNewResponse_answer_reject R s text hrej] at h
      simp only [Option.some.injEq, Prod.mk.injEq] at h
      obtain ⟨hd, -⟩ := h
      rw [← hd]
      exact hInv

theorem step_preserves_Inv (R : Renderer) (s : GameData) (op : GameOp) (s' : GameData)
    (hInv : Inv s) (h : step R s op = some s') : Inv s' := by
  cases op with
  | submit o text =>
    simp only [step, Option.map_eq_some'] at h
    obtain ⟨⟨d, st⟩, hd, hfst⟩ := h
    rw [← hfst]
    exact handleNewResponse_Inv R s o text d st hInv hd
  | verdict o c =>
    simp only [step, Option.some.injEq] at h
    rw [← h]
    obtain ⟨hpairs, hstate⟩ := oracleVerdict_fields R s o c
    exact Inv_of_fields s _ hpairs hstate hInv
  | subscribe =>
    simp only [step, Option.some.injEq] at h
    rw [← h]
    exact Inv_of_fields s _ rfl (Or.inl rfl) hInv
  | disconnect i =>
    simp only [step, Option.some.injEq] at h
    rw [← h]
    exact Inv_of_fields s _ rfl (Or.inl rfl) hInv

theorem runOps_Inv (R : Renderer) (ops : List GameOp) (s s' : GameData)
    (hInv : Inv s) (h : runOps R ops s = some s') : Inv s' := by
  induction ops generalizing s with
  | nil =>
    simp only [runOps, Option.some.injEq] at h
    rw [← h]
    exact hInv
  | cons op rest ih =>
    simp only [runOps] at h
    cases hstep : step R s op with
    | none =>
      rw [hstep] at h
      cases h
    | some s1 =>
      rw [hstep] at h
      exact ih s1 (step_preserves_Inv R s op s1 hInv hstep) h

theorem Inv_newGameData (gid key : String) : Inv (newGameData gid key) := by
  refine ⟨?_, ?_, ?_⟩
  · intro _ p hp
    simp [newGameData] at hp
  · intro hq
    simp [newGameData] at hq
  · intro hq
    simp [newGameData] at hq

theorem Reachable_Inv (R : Renderer) (s : GameData) (h : Reachable R s) : Inv s := by
  obtain ⟨gid, key, ops, hrun⟩ := h
  exact runOps_Inv R ops _ s (Inv_newGameData gid key) hrun

theorem countP_eq_zero_of_NoOpen (l : List questionAnswerPair) (h : NoOpen l) :
    l.countP (fun p => decide (p.Answer = "")) = 0 := by
  rw [List.countP_eq_zero]
  intro p hp
  simpa using h p hp

theorem countP_eq_one_of_OneOpenLast (l : List questionAnswerPair) (h : OneOpenLast l) :
    l.countP (fun p => decide (p.Answer = "")) = 1 := by
  obtain ⟨l0, p, rfl, hno, hopen⟩ := h
  rw [List.countP_append, countP_eq_zero_of_NoOpen l0 hno]
  simp [List.countP_cons, hopen]

theorem getLast_cons_dropLast_perm (l : List sseClient) (h : l ≠ []) :
    List.Perm (l.getLast h :: l.dropLast) l := by
  conv_rhs => rw [← List.dropLast_append_getLast h]
  exact (List.perm_append_singleton _ _).symm

theorem sendClients_nil (html : String) :
    sendClientsResponseHTML html [] = ([], []) := by
  simp [sendClientsResponseHTML]

theorem sendClients_cons_done_nil (html : String) (c : sseClient) (hc : c.done = true) :
    sendClientsResponseHTML html [c] = ([], [{ c with channelClosed := true }]) := by
  simp [sendClientsResponseHTML, hc]

theorem sendClients_cons_done (html : String) (c r : sseClient) (rs : List sseClient)
    (hc : c.done = true) :
    sendClientsResponseHTML html (c :: r :: rs) =
      ((sendClientsResponseHTML html
          ((r :: rs).getLast (by simp) :: (r :: rs).dropLast)).1,
       { c with channelClosed := true } ::
         (sendClientsResponseHTML html
           ((r :: rs).getLast (by simp) :: (r :: rs).dropLast)).2) := by
  simp [sendClientsResponseHTML, hc]

theorem sendClients_cons_live (html : String) (c : sseClient) (rest : List sseClient)
    (hc : c.done = false) :
    sendClientsResponseHTML html (c :: rest) =
      ({ c with received := c.received ++ [html] } ::
         (sendClientsResponseHTML html rest).1,
       (sendClientsResponseHTML html rest).2) := by
  rw [sendClientsResponseHTML.eq_def]
  simp [hc]

theorem sendClients_spec (html : String) : ∀ (n : Nat) (l : List sseClient),
    l.length ≤ n →
    List.Perm (sendClientsResponseHTML html l).1
      ((l.filter (fun c => !c.done)).map
        (fun c => { c with received := c.received ++ [html] })) ∧
    List.Perm (sendClientsResponseHTML html l).2
      ((l.filter (fun c => c.done)).map (fun c => { c with channelClosed := true })) := by
  intro n
  induction n with
  | zero =>
    intro l hl
    have hnil : l = [] := List.eq_nil_of_length_eq_zero (Nat.le_zero.mp hl)
    subst hnil
    rw [sendClients_nil]
    exact ⟨List.Perm.refl _, List.Perm.refl _⟩
  | succ n ih =>
    intro l hl
    cases l with
    | nil =>
      rw [sendClients_nil]
      exact ⟨List.Perm.refl _, List.Perm.refl _⟩
    | cons c rest =>
      by_cases hc : c.done
      · cases rest with
        | nil =>
          refine ⟨?_, ?_⟩
          · rw [sendClients_cons_done_nil html c hc,
              List.filter_cons_of_neg (by simp [hc])]
            exact List.Perm.refl _
          · rw [sendClients_cons_done_nil html c hc, List.filter_cons_of_pos hc]
            exact List.Perm.refl _
        | cons r rs =>
          have hlen : ((r :: rs).getLast (by simp) :: (r :: rs).dropLast).length ≤ n := by
            simp only [List.length_cons, List.length_dropLast] at hl ⊢
            omega
          obtain ⟨h1, h2⟩ := ih _ hlen
          have hperm := getLast_cons_dropLast_perm (r :: rs) (by simp)
          refine ⟨?_, ?_⟩
          · rw [sendClients_cons_done html c r rs hc,
              List.filter_cons_of_neg (by simp [hc])]
            exact h1.trans ((hperm.filter _).map _)
          · rw [sendClients_cons_done html c r rs hc,
              List.filter_cons_of_pos hc, List.map_cons]
            exact (h2.trans ((hperm.filter _).map _)).cons _
      · have hcb : c.done = false := by
          cases hdone : c.done
          · rfl
          · exact absurd hdone hc
        have hlen : rest.length ≤ n := by
          simp only [List.length_cons] at hl
          omega
        obtain ⟨h1, h2⟩ := ih rest hlen
        refine ⟨?_, ?_⟩
        · rw [sendClients_cons_live html c rest hcb,
            List.filter_cons_of_pos (by simp [hcb]), List.map_cons]
          exact h1.cons _
        · rw [sendClients_cons_live html c rest hcb,
            List.filter_cons_of_neg (by simp [hcb])]
          exact h2


theorem checkRequestFromOracle_true_iff (data : GameData) (tok : JWTToken) (now : Int) :
    checkRequestFromOracle data (some tok) now = true ↔
      (tok.sig = hmacSign data.oracleJWTKey tok.claims ∧
       claimsExpired tok.claims now = false ∧
       tok.claims.Issuer = data.gameID ∧ tok.claims.Subject = "oracle") := by
  simp only [checkRequestFromOracle]
  split_ifs with h1 h2 h3
  · simp [h1]
  · constructor
    · intro hh
      cases hh
    · intro hh
      rw [hh.2.1] at h2
      cases h2
  · constructor
    · intro hh
      cases hh
    · intro hh
      exfalso
      rcases h3 with h3 | h3
      · exact h3 hh.2.2.1
      · exact h3 hh.2.2.2
  · push_neg at h1 h3
    have h2b : claimsExpired tok.claims now = false := by
      cases hce : claimsExpired tok.claims now
      · rfl
      · exact absurd hce h2
    simp [h1, h2b, h3.1, h3.2]

theorem randomString_length (draws : List Nat) (n : Nat) :
    (randomString draws n).1.length = n := by
  induction n generalizing draws with
  | zero => rfl
  | succ n ih =>
    have h := ih draws.tail
    simp only [randomString, String.length] at h ⊢
    simpa using h

theorem letterRunes_getD_mem (i : Nat) : letterRunes.getD i 'a' ∈ letterRunes := by
  by_cases hi : i < letterRunes.length
  · rw [List.getD_eq_getElem letterRunes 'a' hi]
    exact List.getElem_mem hi
  · rw [List.getD_eq_default letterRunes 'a' (Nat.le_of_not_lt hi)]
    decide

theorem randomString_mem (draws : List Nat) (n : Nat) :
    ∀ c ∈ (randomString draws n).1.data, c ∈ letterRunes := by
  induction n generalizing draws with
  | zero =>
    intro c hc
    cases hc
  | succ n ih =>
    intro c hc
    simp only [randomString] at hc
    cases hc with
    | head => exact letterRunes_getD_mem _
    | tail b hmem => exact ih draws.tail c hmem

theorem newGameLoop_fresh (master : gameMaster) :
    ∀ (fuel : Nat) (draws : List Nat) (gid : String) (d2 : List Nat),
    newGameLoop master draws fuel = some (gid, d2) →
    hasGameID master gid = false ∧ gid.length = gameID_Length ∧
      ∀ c ∈ gid.data, c ∈ letterRunes := by
  intro fuel
  induction fuel with
  | zero =>
    intro draws gid d2 h
    cases h
  | succ fuel ih =>
    intro draws gid d2 h
    simp only [newGameLoop] at h
    by_cases hcol : hasGameID master (randomString draws gameID_Length).1
    · rw [if_pos hcol] at h
      exact ih _ _ _ h
    · rw [if_neg hcol] at h
      have hres := Option.some.inj h
      have hgid : (randomString draws gameID_Length).1 = gid := congrArg Prod.fst hres
      refine ⟨?_, ?_, ?_⟩
      · rw [← hgid]
        cases hh : hasGameID master (randomString draws gameID_Length).1
        · rfl
        · exact absurd hh hcol
      · rw [← hgid]
        exact randomString_length _ _
      · rw [← hgid]
        exact randomString_mem _ _

theorem not_mem_keys_of_hasGameID_false (master : gameMaster) (gid : String)
    (h : hasGameID master gid = false) : gid ∉ master.gameMap.map Prod.fst := by
  intro hmem
  obtain ⟨kv, hkv, hfst⟩ := List.mem_map.mp hmem
  have htrue : hasGameID master gid = true :=
    List.any_eq_true.mpr ⟨kv, hkv, by simp [hfst]⟩
  rw [h] at htrue
  cases htrue



theorem addNextAnswer_ok_fields (s : GameData) (a : String) (d : GameData)
    (h : addNextAnswer s a = AnswerResult.ok d) :
    d.sseClients = s.sseClients ∧ d.allResponsesHTML = s.allResponsesHTML := by
  unfold addNextAnswer at h
  split at h
  · cases h
  · cases hsl : setLastAnswer s.questionAnswerPairs a with
    | none =>
      rw [hsl] at h
      cases h
    | some ps =>
      rw [hsl] at h
      injection h with hd
      rw [← hd]
      exact ⟨rfl, rfl⟩

-- --------------------------------------------------------------------------------
-- Claim theorems
-- --------------------------------------------------------------------------------

/-- C1 (counterexample): the claim "a turn is open only while the session
state is AwaitingAnswer (never in AwaitingQuestion or Ended)" is false: after
submitQuestion "q" followed by resolve, the session is Ended while the last
turn is still open (its answer was never filled in). -/
theorem claim1_counterexample :
    ¬ (∀ (R : Renderer) (s : GameData), Reachable R s →
        openTurns s ≤ 1 ∧ (1 ≤ openTurns s → s.gameState = gameState_AwaitingAnswer)) := by
  intro hclaim
  have hreach : Reachable renderNone
      { gameID := "g", oracleJWTKey := "k", gameState := gameState_GameOver,
        questionAnswerPairs := [{ Index := 1, Question := "q", Answer := "" }],
        allResponsesHTML := "", sseClients := [] } :=
    ⟨"g", "k", [GameOp.submit false "q", GameOp.verdict true true], rfl⟩
  have hcontra := (hclaim renderNone _ hreach).2 (by decide)
  exact absurd hcontra (by decide)

/-- C1 (amended): for every reachable session state, the turn sequence
contains at most one open (answer-less) turn, and no turn is open while the
state is AwaitingQuestion (an open turn can persist into the Ended state when
the game is resolved while awaiting an answer). -/
theorem claim1_turns_at_most_one_open :
    ∀ (R : Renderer) (s : GameData), Reachable R s →
    openTurns s ≤ 1 ∧ (s.gameState = gameState_AwaitingQuestion → openTurns s = 0) := by
  intro R s h
  have hInv := Reachable_Inv R s h
  constructor
  · simp only [openTurns]
    cases hgs : s.gameState with
    | gameState_AwaitingQuestion =>
      rw [countP_eq_zero_of_NoOpen _ (hInv.1 hgs)]
      exact Nat.zero_le 1
    | gameState_AwaitingAnswer =>
      rw [countP_eq_one_of_OneOpenLast _ (hInv.2.1 hgs)]
    | gameState_GameOver =>
      rcases hInv.2.2 hgs with hno | hone
      · rw [countP_eq_zero_of_NoOpen _ hno]
        exact Nat.zero_le 1
      · rw [countP_eq_one_of_OneOpenLast _ hone]
  · intro hgs
    simp only [openTurns]
    rw [countP_eq_zero_of_NoOpen _ (hInv.1 hgs)]

/-- C1 witness: the amended claim evaluated on the fresh session. -/
theorem claim1_witness :
    openTurns (newGameData "g" "k") ≤ 1 ∧ openTurns (newGameData "g" "k") = 0 := by
  have h := claim1_turns_at_most_one_open renderNone (newGameData "g" "k")
      ⟨"g", "k", [], rfl⟩
  exact ⟨h.1, h.2 rfl⟩

/-- C2: once the game state is Ended (GameOver), every subsequent
submitQuestion / submitAnswer / resolve call is rejected, and no public
operation changes the game state or the turn sequence again. -/
theorem claim2_gameOver_terminal :
    ∀ (R : Renderer) (s : GameData) (o : Bool) (text : String) (c : Bool),
    s.gameState = gameState_GameOver →
    handleNewResponse R s o text = some (s, HTTPStatus.badRequest400)
    ∧ (oracleVerdict R s o c).1 = s
    ∧ (oracleVerdict R s o c).2 ≠ HTTPStatus.ok200
    ∧ (∀ op s2, step R s op = some s2 →
        s2.gameState = gameState_GameOver ∧
        s2.questionAnswerPairs = s.questionAnswerPairs) := by
  intro R s o text c hgo
  refine ⟨handleNewResponse_early R s o text (Or.inr hgo),
    (oracleVerdict_rejected R s o c hgo).1,
    (oracleVerdict_rejected R s o c hgo).2, ?_⟩
  intro op s2 hstep
  cases op with
  | submit o2 t2 =>
    simp only [step] at hstep
    rw [handleNewResponse_early R s o2 t2 (Or.inr hgo)] at hstep
    simp only [Option.map_some', Option.some.injEq] at hstep
    rw [← hstep]
    exact ⟨hgo, rfl⟩
  | verdict o2 c2 =>
    simp only [step, Option.some.injEq] at hstep
    rw [← hstep, (oracleVerdict_rejected R s o2 c2 hgo).1]
    exact ⟨hgo, rfl⟩
  | subscribe =>
    simp only [step, Option.some.injEq] at hstep
    rw [← hstep]
    exact ⟨hgo, rfl⟩
  | disconnect i =>
    simp only [step, Option.some.injEq] at hstep
    rw [← hstep]
    exact ⟨hgo, rfl⟩

/-- C2 witness: the finished sample session rejects a submission and a second
verdict. -/
theorem claim2_witness :
    handleNewResponse renderNone sampleGameOver false "q" =
      some (sampleGameOver, HTTPStatus.badRequest400)
    ∧ (oracleVerdict renderNone sampleGameOver true true).1 = sampleGameOver := by
  have h := claim2_gameOver_terminal renderNone sampleGameOver false "q" true rfl
  exact ⟨h.1, h.2.1⟩

/-- C3: submitQuestion (a guesser POST to submitResponse) is rejected exactly
when the state is not AwaitingQuestion (Ended included) or the text is
empty; on success it appends a turn with index = previous length + 1 and
question = text (answer absent), moves to AwaitingAnswer, and leaves all
earlier turns unchanged. -/
theorem claim3_submitQuestion_spec :
    ∀ (R : Renderer) (s : GameData) (text : String),
    ((s.gameState ≠ gameState_AwaitingQuestion ∨ text = "") →
      handleNewResponse R s false text = some (s, HTTPStatus.badRequest400))
    ∧ (s.gameState = gameState_AwaitingQuestion → text ≠ "" →
        (handleNewResponse R s false text).map
          (fun r => (r.1.questionAnswerPairs, r.1.gameState, r.2))
        = some (s.questionAnswerPairs ++
            [{ Index := s.questionAnswerPairs.length + 1, Question := text, Answer := "" }],
          gameState_AwaitingAnswer, HTTPStatus.ok200)) := by
  intro R s text
  constructor
  · exact handleNewResponse_question_reject R s text
  · intro hst htext
    rw [handleNewResponse_question_ok R s text hst htext]
    simp [publishUpdate_pairs, publishUpdate_gameState]

/-- C3 witness: on a fresh session the empty question is rejected and "q" is
appended as turn 1. -/
theorem claim3_witness :
    handleNewResponse renderNone (newGameData "g" "k") false "" =
      some (newGameData "g" "k", HTTPStatus.badRequest400)
    ∧ (handleNewResponse renderNone (newGameData "g" "k") false "q").map
        (fun r => (r.1.questionAnswerPairs, r.1.gameState, r.2))
      = some ([{ Index := 1, Question := "q", Answer := "" }],
          gameState_AwaitingAnswer, HTTPStatus.ok200) := by
  constructor
  · exact (claim3_submitQuestion_spec renderNone (newGameData "g" "k") "").1 (Or.inr rfl)
  · have h := (claim3_submitQuestion_spec renderNone (newGameData "g" "k") "q").2 rfl
      (by decide)
    exact h.trans (by decide)

/-- C4: for reachable session states, submitAnswer (an oracle POST to
submitResponse) is rejected exactly when the state is not AwaitingAnswer or
the text is empty; on success the single open (last) turn gets answer = text
with its index and question and all earlier turns unchanged and the state
returns to AwaitingQuestion; in particular, on a fresh session (before any
question) submitAnswer always rejects. -/
theorem claim4_submitAnswer_spec :
    ∀ (R : Renderer) (s : GameData) (text : String), Reachable R s →
    ((s.gameState ≠ gameState_AwaitingAnswer ∨ text = "") →
      handleNewResponse R s true text = some (s, HTTPStatus.badRequest400))
    ∧ (s.gameState = gameState_AwaitingAnswer → text ≠ "" →
        (handleNewResponse R s true text).map
          (fun r => (r.1.questionAnswerPairs, r.1.gameState, r.2))
        = some (s.questionAnswerPairs.dropLast ++
            [{ s.questionAnswerPairs.getLastD { Index := 0, Question := "", Answer := "" }
                with Answer := text }],
          gameState_AwaitingQuestion, HTTPStatus.ok200))
    ∧ (∀ gid key t2, handleNewResponse R (newGameData gid key) true t2
        = some (newGameData gid key, HTTPStatus.badRequest400)) := by
  intro R s text hreach
  refine ⟨handleNewResponse_answer_reject R s text, ?_, ?_⟩
  · intro hst htext
    obtain ⟨l0, p, hl, -, -⟩ := (Reachable_Inv R s hreach).2.1 hst
    rw [handleNewResponse_answer_ok R s text l0 p hst htext hl]
    simp [publishUpdate_pairs, publishUpdate_gameState, hl, List.dropLast_concat,
      List.getLastD_concat]
  · intro gid key t2
    refine handleNewResponse_answer_reject R (newGameData gid key) t2 (Or.inl ?_)
    intro hq
    simp [newGameData] at hq

/-- C4 witness: the sample awaiting-answer session accepts "Yes" onto turn 1,
and the fresh session rejects an answer. -/
theorem claim4_witness :
    (handleNewResponse renderNone sampleAwaitingAnswer true "Yes").map
        (fun r => (r.1.questionAnswerPairs, r.1.gameState, r.2))
      = some ([{ Index := 1, Question := "q", Answer := "Yes" }],
          gameState_AwaitingQuestion, HTTPStatus.ok200)
    ∧ handleNewResponse renderNone (newGameData "g" "k") true "Yes"
      = some (newGameData "g" "k", HTTPStatus.badRequest400) := by
  have h := claim4_submitAnswer_spec renderNone sampleAwaitingAnswer "Yes"
      ⟨"g", "k", [GameOp.submit false "q"], rfl⟩
  constructor
  · have h2 := h.2.1 rfl (by decide)
    exact h2.trans (by decide)
  · exact h.2.2 "g" "k" "Yes"



/-- C5: checkRequestFromOracle returns false (it is a total Bool function, so
it never throws) whenever the credential is missing, the signature does not
verify under the session key, the token is expired, the issuer differs from
the session id, or the subject differs from "oracle"; and a token issued
under a different session key never verifies, however well-formed. -/
theorem claim5_verify_sound :
    ∀ (data : GameData) (cookie : Option JWTToken) (now : Int),
    (cookie = none → checkRequestFromOracle data cookie now = false)
    ∧ (∀ tok, cookie = some tok →
        (tok.sig ≠ hmacSign data.oracleJWTKey tok.claims ∨
         claimsExpired tok.claims now = true ∨
         tok.claims.Issuer ≠ data.gameID ∨
         tok.claims.Subject ≠ "oracle") →
        checkRequestFromOracle data cookie now = false)
    ∧ (∀ gid2 key2 now2, key2 ≠ data.oracleJWTKey →
        checkRequestFromOracle data (some (issueOracleToken gid2 key2 now2)) now = false) := by
  intro data cookie now
  refine ⟨?_, ?_, ?_⟩
  · intro h
    rw [h]
    rfl
  · intro tok hc hbad
    rw [hc]
    cases hb : checkRequestFromOracle data (some tok) now
    · rfl
    · exfalso
      have hgood := (checkRequestFromOracle_true_iff data tok now).mp hb
      rcases hbad with h | h | h | h
      · exact h hgood.1
      · rw [hgood.2.1] at h
        cases h
      · exact h hgood.2.2.1
      · exact h hgood.2.2.2
  · intro gid2 key2 now2 hkey
    cases hb : checkRequestFromOracle data (some (issueOracleToken gid2 key2 now2)) now
    · rfl
    · exfalso
      have hgood := (checkRequestFromOracle_true_iff data _ now).mp hb
      have hsig := hgood.1
      simp only [issueOracleToken, hmacSign, Sig.mk.injEq] at hsig
      exact hkey hsig.1

/-- C5 witness: the fresh session "g" with key "k" rejects a missing cookie,
a wrong-subject token, and a token issued under another session key. -/
theorem claim5_witness :
    checkRequestFromOracle (newGameData "g" "k") none 0 = false
    ∧ checkRequestFromOracle (newGameData "g" "k")
        (some { claims := { Issuer := "g", Subject := "guesser", ExpiresAt := none },
                sig := hmacSign "k" { Issuer := "g", Subject := "guesser", ExpiresAt := none } })
        0 = false
    ∧ checkRequestFromOracle (newGameData "g" "k") (some (issueOracleToken "h" "k2" 0)) 0
        = false := by
  refine ⟨?_, ?_, ?_⟩
  · exact (claim5_verify_sound (newGameData "g" "k") none 0).1 rfl
  · exact (claim5_verify_sound (newGameData "g" "k")
      (some { claims := { Issuer := "g", Subject := "guesser", ExpiresAt := none },
              sig := hmacSign "k" { Issuer := "g", Subject := "guesser", ExpiresAt := none } })
      0).2.1 _ rfl (Or.inr (Or.inr (Or.inr (by decide))))
  · exact (claim5_verify_sound (newGameData "g" "k")
      (some (issueOracleToken "h" "k2" 0)) 0).2.2 "h" "k2" 0 (by decide)

/-- C6: a single publish (sendClientsResponseHTML) delivers the html exactly
once to every client whose context is not done — the surviving client list is
a permutation of the live clients each with the payload appended — and every
client whose context was done receives nothing: it is spliced out of the list
with its received log unchanged and its channel closed, so it can never be
sent a later update. -/
theorem claim6_publish_fanout (html : String) (l : List sseClient) :
    List.Perm (sendClientsResponseHTML html l).1
      ((l.filter (fun c => !c.done)).map
        (fun c => { c with received := c.received ++ [html] }))
    ∧ List.Perm (sendClientsResponseHTML html l).2
      ((l.filter (fun c => c.done)).map (fun c => { c with channelClosed := true })) :=
  sendClients_spec html l.length l (Nat.le_refl _)

/-- C7 (code evaluation at the failing input): when the 24h timer fires for a
session that still has one live subscriber, the expiry goroutine only deletes
the map entry — it never invokes gameCleanup — so the session data keeps its
subscriber with an open, unclosed channel; gameCleanup, had it been called,
would have emptied the set, cancelled the context and closed the channel. -/
theorem claim7_expiry_no_shutdown :
    (gameExpiry { gameMap := [("g", sampleWithLiveClient)] } "g").gameMap = []
    ∧ sampleWithLiveClient.sseClients =
        [{ done := false, received := [""], channelClosed := false }]
    ∧ (gameCleanup sampleWithLiveClient).1.sseClients = []
    ∧ (gameCleanup sampleWithLiveClient).2 =
        [{ done := true, received := [""], channelClosed := true }] :=
  ⟨rfl, rfl, rfl, rfl⟩

/-- C8: whenever newGame succeeds it has drawn a candidate id that was not a
key of the registry (re-rolling while it collided), of the fixed length and
over the 62-character alphanumeric alphabet, and has inserted the new session
under that id leaving all existing entries in place; hence distinct sessions
in the registry keep distinct identifiers. -/
theorem claim8_newGame_unique :
    ∀ (master : gameMaster) (draws : List Nat) (fuel : Nat) (now : Int)
      (gid : String) (tok : JWTToken) (m2 : gameMaster) (r2 : List Nat),
    newGame master draws fuel now = some (gid, tok, m2, r2) →
    hasGameID master gid = false
    ∧ gid.length = gameID_Length
    ∧ (∀ c ∈ gid.data, c ∈ letterRunes)
    ∧ (∃ key, m2.gameMap = master.gameMap ++ [(gid, newGameData gid key)])
    ∧ ((master.gameMap.map Prod.fst).Nodup → (m2.gameMap.map Prod.fst).Nodup) := by
  intro master draws fuel now gid tok m2 r2 h
  simp only [newGame] at h
  cases hloop : newGameLoop master draws fuel with
  | none =>
    rw [hloop] at h
    cases h
  | some res =>
    rw [hloop] at h
    obtain ⟨gid0, d1⟩ := res
    simp only [Option.some.injEq, Prod.mk.injEq] at h
    obtain ⟨hgid, -, hm2, -⟩ := h
    obtain ⟨hfresh, hlen, hmem⟩ := newGameLoop_fresh master fuel draws gid0 d1 hloop
    subst hgid
    refine ⟨hfresh, hlen, hmem, ⟨(randomString d1 64).1, ?_⟩, ?_⟩
    · rw [← hm2]
    · intro hnodup
      rw [← hm2]
      simp only [List.map_append, List.map_cons, List.map_nil]
      rw [List.nodup_append]
      refine ⟨hnodup, List.nodup_singleton _, ?_⟩
      intro a ha hb
      rw [List.mem_singleton] at hb
      subst hb
      exact not_mem_keys_of_hasGameID_false master a hfresh ha

/-- C8 witness: creating a game in the empty registry with an all-zero
randomness stream yields the fresh id "aaaaaaaaaaaa" of the fixed length. -/
theorem claim8_witness :
    hasGameID { gameMap := [] } "aaaaaaaaaaaa" = false
    ∧ "aaaaaaaaaaaa".length = gameID_Length := by
  have h := claim8_newGame_unique { gameMap := [] } [] 1 0 "aaaaaaaaaaaa"
      (issueOracleToken "aaaaaaaaaaaa" (randomString [] 64).1 0)
      { gameMap := [("aaaaaaaaaaaa", newGameData "aaaaaaaaaaaa" (randomString [] 64).1)] }
      [] rfl
  exact ⟨h.1, h.2.1⟩

/-- C9: when the renderer fails, the fan-out for that event is aborted
entirely: after a successful submission whose re-rendering fails, and after a
verdict whose rendering fails, no subscriber receives anything (the client
list, each received log, and the stored html are unchanged), and the handler
returns normally instead of crashing. -/
theorem claim9_renderFailure_aborts_fanout :
    ∀ (R : Renderer) (s : GameData) (o : Bool) (text : String) (c : Bool)
      (s2 : GameData) (st : HTTPStatus),
    (∀ ps, R.gameItem ps = none) → (∀ b, R.gameOver b = none) →
    (handleNewResponse R s o text = some (s2, st) →
        s2.sseClients = s.sseClients ∧ s2.allResponsesHTML = s.allResponsesHTML)
    ∧ ((oracleVerdict R s o c).1.sseClients = s.sseClients
       ∧ (oracleVerdict R s o c).1.allResponsesHTML = s.allResponsesHTML) := by
  intro R s o text c s2 st hgi hgov
  constructor
  · intro h
    cases o with
    | false =>
      by_cases hok : s.gameState = gameState_AwaitingQuestion ∧ text ≠ ""
      · obtain ⟨hst, htext⟩ := hok
        rw [handleNewResponse_question_ok R s text hst htext,
          publishUpdate_none R _ (hgi _)] at h
        simp only [Option.some.injEq, Prod.mk.injEq] at h
        obtain ⟨hd, -⟩ := h
        rw [← hd]
        exact ⟨rfl, rfl⟩
      · have hrej : s.gameState ≠ gameState_AwaitingQuestion ∨ text = "" := by tauto
        rw [handleNewResponse_question_reject R s text hrej] at h
        simp only [Option.some.injEq, Prod.mk.injEq] at h
        obtain ⟨hd, -⟩ := h
        rw [← hd]
        exact ⟨rfl, rfl⟩
    | true =>
      by_cases h0 : text.length = 0 ∨ s.gameState = gameState_GameOver
      · rw [handleNewResponse_early R s true text h0] at h
        simp only [Option.some.injEq, Prod.mk.injEq] at h
        obtain ⟨hd, -⟩ := h
        rw [← hd]
        exact ⟨rfl, rfl⟩
      · unfold handleNewResponse at h
        rw [if_neg h0, if_pos rfl] at h
        cases ha : addNextAnswer s text with
        | errNotAwaiting =>
          rw [ha] at h
          simp only [Option.some.injEq, Prod.mk.injEq] at h
          obtain ⟨hd, -⟩ := h
          rw [← hd]
          exact ⟨rfl, rfl⟩
        | panicIndexOutOfRange =>
          rw [ha] at h
          cases h
        | ok d =>
          rw [ha] at h
          dsimp only at h
          rw [publishUpdate_none R d (hgi _)] at h
          simp only [Option.some.injEq, Prod.mk.injEq] at h
          obtain ⟨hd, -⟩ := h
          rw [← hd]
          exact addNextAnswer_ok_fields s text d ha
  · unfold oracleVerdict
    by_cases ho : o = false
    · simp [ho]
    · by_cases hgs : s.gameState = gameState_GameOver
      · simp [ho, hgs]
      · simp [ho, hgs, hgov]

/-- C9 witness: with the always-failing renderer, a successful question on a
fresh session and a verdict both leave the subscriber list untouched. -/
theorem claim9_witness :
    (({ newGameData "g" "k" with
        questionAnswerPairs := [{ Index := 1, Question := "q", Answer := "" }]
        gameState := gameState_AwaitingAnswer } : GameData).sseClients
      = (newGameData "g" "k").sseClients)
    ∧ (oracleVerdict renderNone (newGameData "g" "k") true true).1.sseClients
      = (newGameData "g" "k").sseClients := by
  have h1 := claim9_renderFailure_aborts_fanout renderNone (newGameData "g" "k")
      false "q" true
      ({ newGameData "g" "k" with
        questionAnswerPairs := [{ Index := 1, Question := "q", Answer := "" }]
        gameState := gameState_AwaitingAnswer }) HTTPStatus.ok200
      (fun _ => rfl) (fun _ => rfl)
  have h2 := claim9_renderFailure_aborts_fanout renderNone (newGameData "g" "k")
      true "q" true (newGameData "g" "k") HTTPStatus.badRequest400
      (fun _ => rfl) (fun _ => rfl)
  exact ⟨(h1.1 rfl).1, h2.2.1⟩

/-- C10: on every reachable session state in AwaitingAnswer the turn sequence
is non-empty, so the last-element access made by addNextAnswer is in bounds
(setLastAnswer, the model of that access, never hits its out-of-range
branch). -/
theorem claim10_awaitingAnswer_nonempty :
    ∀ (R : Renderer) (s : GameData), Reachable R s →
    s.gameState = gameState_AwaitingAnswer →
    s.questionAnswerPairs ≠ [] ∧
    ∀ a, (setLastAnswer s.questionAnswerPairs a).isSome = true := by
  intro R s h hst
  obtain ⟨l0, p, hl, -, -⟩ := (Reachable_Inv R s h).2.1 hst
  constructor
  · rw [hl]
    simp
  · intro a
    rw [hl, setLastAnswer_concat]
    rfl

/-- C10 witness: the sample awaiting-answer session has a non-empty turn list
and an in-bounds last-element update. -/
theorem claim10_witness :
    sampleAwaitingAnswer.questionAnswerPairs ≠ [] ∧
    (setLastAnswer sampleAwaitingAnswer.questionAnswerPairs "Yes").isSome = true := by
  have h := claim10_awaitingAnswer_nonempty renderNone sampleAwaitingAnswer
      ⟨"g", "k", [GameOp.submit false "q"], rfl⟩ rfl
  exact ⟨h.1, h.2 "Yes"⟩


end TwentyQuestions
